import Mathlib

/-!
# Verification of `scripts/memory_sync.py`

A shallow embedding of the memory-sync tool: a JSON "memory document" with a
required marker field, an entry list merged by unique id and sorted by
timestamp, plus load/save against a modelled filesystem.

Modelling conventions:
* Python dict documents are modelled by `MemoryDocument`; keys that a raw JSON
  document may lack (`version`, `timestamp`, `campbell_motto`, `entries`) are
  `Option`-valued, mirroring `dict.get` versus `dict[...]` access.
* Timestamps and dates are ISO-format strings, compared lexicographically
  exactly as Python compares `str` (both orders are lexicographic by code
  point).
* The clock (`datetime.utcnow()`) is injected as explicit `today`/`now`
  string parameters.
* Functions that can raise an uncaught `KeyError` (a `dict[...]` access on a
  missing key) return `Option`, with `none` for the raised exception.
* The filesystem is a map from path to `Option FileContent`; `FileContent`
  distinguishes a well-formed JSON document from malformed contents, and JSON
  serialisation of a document is modelled as faithful (`json.dump` followed by
  `json.load` is the identity on the documents modelled here).
-/

/-- The metadata mapping of one entry: the required `timestamp` field plus any
further string-valued fields. -/
structure Metadata where
  timestamp : String
  extra : List (String × String)
deriving DecidableEq

/-- One memory record, as built by `add_entry` / merged by `merge_memories`. -/
structure Entry where
  id : String
  type : String
  content : String
  source : String
  metadata : Metadata
deriving DecidableEq

/-- A memory document (the parsed JSON dict). Every field a raw document might
lack is `Option`-valued. -/
structure MemoryDocument where
  version : Option String
  timestamp : Option String
  campbell_motto : Option String
  entries : Option (List Entry)
deriving DecidableEq

/-- The `metadata` argument of `add_entry`: a dict that may itself carry a
`timestamp` key (which then overrides the generated one, because of
`{'timestamp': now, **(metadata or {})}`) plus other fields. -/
structure UserMeta where
  timestampOverride : Option String
  extra : List (String × String)
deriving DecidableEq

/-- Contents of a file on disk: either well-formed JSON parsing to a document,
or malformed data (raising `json.JSONDecodeError`). -/
inductive FileContent where
  | doc (m : MemoryDocument)
  | malformed
deriving DecidableEq

/-- The filesystem: each path maps to the contents of the file there, if any. -/
abbrev FS := String → Option FileContent

/-- Outcome of the `json.dump` write inside `save_memory`: success, or an I/O
error leaving `residue` at the target path. -/
inductive WriteOutcome where
  | ok
  | ioError (residue : Option FileContent)

/-- Python `s.startswith(pre)`: `pre` is a prefix of `s` (by code points). -/
def startswith (s pre : String) : Bool :=
  pre.data.isPrefixOf s.data

/-- Python `f"{n:03d}"`: decimal representation zero-padded to width 3. -/
def pad3 (n : Nat) : String :=
  String.mk (List.replicate (3 - (Nat.repr n).length) '0') ++ Nat.repr n

/-- The Campbell motto: the fixed marker a loadable document must carry. -/
def motto : String := "Ne Obliviscaris"

/-- `load_memory` (lines 15-29): read the file, parse JSON, check the marker;
`none` for file-missing, malformed JSON, or a missing/mismatched marker. -/
def load_memory (fs : FS) (file_path : String) : Option MemoryDocument :=
  match fs file_path with
  | none => none
  | some .malformed => none
  | some (.doc memory) =>
    if memory.campbell_motto = some motto then some memory else none

/-- `save_memory` (lines 31-45): if a file exists at `file_path`, rename it to
`file_path ++ ".backup"` (overwriting any prior backup), then write the
document as JSON. Returns the success flag and the new filesystem; on an I/O
error during the write, the failed write leaves `residue` at the path and the
function returns `false` without rolling the backup rename back. -/
def save_memory (fs : FS) (memory : MemoryDocument) (file_path : String)
    (w : WriteOutcome) : Bool × FS :=
  let fs1 : FS :=
    match fs file_path with
    | some c => fun p =>
        if p = file_path then none
        else if p = file_path ++ ".backup" then some c
        else fs p
    | none => fs
  match w with
  | .ok => (true, fun p => if p = file_path then some (.doc memory) else fs1 p)
  | .ioError residue =>
      (false, fun p => if p = file_path then residue else fs1 p)

/-- Lexicographic comparison of code-point sequences: exactly Python's `<=`
on `str` (shorter prefix first, otherwise first differing code point). -/
def chars_le : List Char → List Char → Bool
  | [], _ => true
  | _ :: _, [] => false
  | a :: as, b :: bs =>
    if a < b then true
    else if b < a then false
    else chars_le as bs

/-- Python string `<=` (lexicographic by code point). -/
def str_le (a b : String) : Bool :=
  chars_le a.data b.data

/-- Comparison used by `local['entries'].sort(key=lambda x: x['metadata']['timestamp'])`:
Python compares the string timestamps lexicographically. -/
def ts_le (a b : Entry) : Bool :=
  str_le a.metadata.timestamp b.metadata.timestamp

/-- `merge_memories` (lines 47-62): append each remote entry whose id is not
among the local ids, then sort all entries by `metadata.timestamp` (Python's
stable ascending sort) and stamp the document with the current time. `none`
models the `KeyError` raised by `local['entries']` when the local document has
no `entries` key (raised either by the append or by the sort). -/
def merge_memories (local_ remote : MemoryDocument) (now : String) :
    Option MemoryDocument :=
  let local_ids := (local_.entries.getD []).map Entry.id
  let added := (remote.entries.getD []).filter (fun e => decide (e.id ∉ local_ids))
  match local_.entries with
  | none => none
  | some es =>
      some { local_ with
             entries := some (List.mergeSort (es ++ added) ts_le)
             timestamp := some now }

/-- The ids of entries whose id starts with today's date
(`[e['id'] for e in memory.get('entries', []) if e['id'].startswith(today)]`). -/
def per_day_ids (memory : MemoryDocument) (today : String) : List String :=
  ((memory.entries.getD []).map Entry.id).filter (fun i => startswith i today)

/-- `next_num = len(existing_ids) + 1` (line 70). -/
def next_num (memory : MemoryDocument) (today : String) : Nat :=
  (per_day_ids memory today).length + 1

/-- The id generated for a new entry: `f"{today}-{next_num:03d}"` (line 71). -/
def gen_id (memory : MemoryDocument) (today : String) : String :=
  today ++ "-" ++ pad3 (next_num memory today)

/-- The metadata of a new entry: `{'timestamp': now, **(metadata or {})}` —
a user-supplied `timestamp` key overrides the generated one. -/
def merged_metadata (metadata : Option UserMeta) (now : String) : Metadata :=
  match metadata with
  | none => { timestamp := now, extra := [] }
  | some md => { timestamp := md.timestampOverride.getD now, extra := md.extra }

/-- `add_entry` (lines 64-88): build a new entry with the generated per-day id,
content truncated to 200 characters, and merged metadata; append it to
`memory['entries']` (no re-sort!) and stamp the document. `none` models the
`KeyError` from `memory['entries'].append` when the document lacks `entries`. -/
def add_entry (memory : MemoryDocument) (entry_type content source : String)
    (metadata : Option UserMeta) (today now : String) : Option MemoryDocument :=
  let new_entry : Entry :=
    { id := gen_id memory today
      type := entry_type
      content := content.take 200
      source := source
      metadata := merged_metadata metadata now }
  match memory.entries with
  | none => none
  | some es =>
      some { memory with
             entries := some (es ++ [new_entry])
             timestamp := some now }

/-- The fresh document `sync_with_remote` creates when the local file is
missing or invalid (lines 97-103). -/
def init_document (now : String) : MemoryDocument :=
  { version := some "20260213-0.1"
    timestamp := some now
    campbell_motto := some motto
    entries := some [] }

/-- `sync_with_remote` (lines 90-123): load the local file, falling back to a
fresh document; record the sync attempt via `add_entry`; save. Remote fetching
is unimplemented in the source. `none` models an uncaught exception escaping
from `add_entry`. -/
def sync_with_remote (fs : FS) (local_path remote_url source_id : String)
    (today now : String) (w : WriteOutcome) : Option (Bool × FS) :=
  let local_memory :=
    match load_memory fs local_path with
    | some m => m
    | none => init_document now
  match add_entry local_memory "action"
      ("Memory sync attempted with " ++ remote_url) source_id
      (some { timestampOverride := none
              extra := [("sync_status", "local_only"), ("remote_url", remote_url)] })
      today now with
  | none => none
  | some updated => some (save_memory fs updated local_path w)

/-- Entry ids of a document (empty when the `entries` key is absent). -/
def doc_ids (memory : MemoryDocument) : List String :=
  (memory.entries.getD []).map Entry.id

/-- Entries sorted ascending by `metadata.timestamp` (Python string order). -/
def SortedByTs (l : List Entry) : Prop :=
  l.Pairwise (fun a b => ts_le a b = true)

/-- The numeric value of the `<sequence>` component of an id of the form
`<today>-<sequence>`: the digits after the date prefix and the dash, read in
decimal. Interprets the spec's "per-day sequence number" of an entry. -/
def seq_of_id (today id : String) : Nat :=
  (id.data.drop (today.length + 1)).foldl (fun n c => n * 10 + (c.toNat - 48)) 0

/-! ## Helper lemmas -/

theorem chars_le_trans : ∀ a b c : List Char,
    chars_le a b = true → chars_le b c = true → chars_le a c = true
  | [], _, _ => by simp [chars_le]
  | _ :: _, [], _ => by simp [chars_le]
  | _ :: _, _ :: _, [] => by simp [chars_le]
  | x :: xs, y :: ys, z :: zs => by
    simp only [chars_le]
    intro h1 h2
    rcases lt_trichotomy x y with hxy | hxy | hxy
    · rcases lt_trichotomy y z with hyz | hyz | hyz
      · simp [lt_trans hxy hyz]
      · subst hyz; simp [hxy]
      · rw [if_neg (lt_asymm hyz), if_pos hyz] at h2; exact absurd h2 (by simp)
    · subst hxy
      rw [if_neg (lt_irrefl x), if_neg (lt_irrefl x)] at h1
      rcases lt_trichotomy x z with hxz | hxz | hxz
      · simp [hxz]
      · subst hxz
        rw [if_neg (lt_irrefl x), if_neg (lt_irrefl x)] at h2 ⊢
        exact chars_le_trans xs ys zs h1 h2
      · rw [if_neg (lt_asymm hxz), if_pos hxz] at h2; exact absurd h2 (by simp)
    · rw [if_neg (lt_asymm hxy), if_pos hxy] at h1; exact absurd h1 (by simp)

theorem chars_le_total : ∀ a b : List Char,
    (chars_le a b || chars_le b a) = true
  | [], _ => by simp [chars_le]
  | _ :: _, [] => by simp [chars_le]
  | x :: xs, y :: ys => by
    simp only [chars_le]
    rcases lt_trichotomy x y with hxy | hxy | hxy
    · simp [hxy]
    · subst hxy
      simp only [if_neg (lt_irrefl x)]
      exact chars_le_total xs ys
  
    · simp [hxy, lt_asymm hxy]

theorem ts_le_trans (a b c : Entry) :
    ts_le a b = true → ts_le b c = true → ts_le a c = true :=
  chars_le_trans _ _ _

theorem ts_le_total (a b : Entry) : (ts_le a b || ts_le b a) = true :=
  chars_le_total _ _

theorem isPrefixOf_self_append (l t : List Char) : l.isPrefixOf (l ++ t) = true := by
  induction l with
  | nil => simp [List.isPrefixOf]
  | cons x xs ih => simp [List.isPrefixOf, ih]

theorem startswith_self_append (today s : String) :
    startswith (today ++ s) today = true := by
  simp only [startswith, String.data_append]
  exact isPrefixOf_self_append _ _

theorem startswith_gen_id (memory : MemoryDocument) (today : String) :
    startswith (gen_id memory today) today = true := by
  have h := startswith_self_append today ("-" ++ pad3 (next_num memory today))
  simpa [gen_id, String.append_assoc] using h

theorem backup_path_ne (s : String) : s ++ ".backup" ≠ s := by
  intro h
  have hlen := congrArg String.length h
  rw [String.length_append] at hlen
  have h7 : (".backup" : String).length = 7 := rfl
  omega

/-! ## Claims -/

/-- C6: for every valid document (carrying the correct marker) and every path,
`save_memory` with a successful write followed by `load_memory` returns a
document structurally equal to the one saved. -/
theorem C6_persist_load_roundtrip (fs : FS) (memory : MemoryDocument)
    (file_path : String) (h : memory.campbell_motto = some motto) :
    load_memory (save_memory fs memory file_path .ok).2 file_path = some memory := by
  cases hfs : fs file_path <;> simp [save_memory, load_memory, hfs, h]

/-- Witness for C6 at a concrete filesystem and document. -/
theorem C6_witness :
    load_memory
        (save_memory (fun _ => none)
          { version := some "v", timestamp := some "t",
            campbell_motto := some motto, entries := some [] }
          "memory.json" .ok).2
        "memory.json"
      = some { version := some "v", timestamp := some "t",
               campbell_motto := some motto, entries := some [] } :=
  C6_persist_load_roundtrip (fun _ => none)
    { version := some "v", timestamp := some "t",
      campbell_motto := some motto, entries := some [] }
    "memory.json" rfl

/-- C7: `load_memory` returns `none` exactly when the file is missing, the
contents are malformed JSON, or the marker field differs from the fixed
constant; otherwise it returns the parsed document. -/
theorem C7_load_error_characterization (fs : FS) (p : String) :
    (load_memory fs p = none ↔
      fs p = none ∨ fs p = some .malformed ∨
        ∃ m, fs p = some (.doc m) ∧ m.campbell_motto ≠ some motto)
    ∧ (∀ m, fs p = some (.doc m) → m.campbell_motto = some motto →
        load_memory fs p = some m) := by
  constructor
  · cases hfs : fs p with
    | none => simp [load_memory, hfs]
    | some c =>
      cases c with
      | malformed => simp [load_memory, hfs]
      | doc m =>
        by_cases hm : m.campbell_motto = some motto <;>
          simp [load_memory, hfs, hm]
  · intro m hm hmot
    simp [load_memory, hm, hmot]

/-- Witness for C7: a missing file fails to load; a well-formed marked
document loads back. -/
theorem C7_witness :
    load_memory (fun _ => none) "memory.json" = none
    ∧ load_memory
        (fun _ => some (.doc { version := none, timestamp := none,
                               campbell_motto := some motto, entries := some [] }))
        "memory.json"
      = some { version := none, timestamp := none,
               campbell_motto := some motto, entries := some [] } :=
  ⟨(C7_load_error_characterization (fun _ => none) "memory.json").1.mpr (Or.inl rfl),
   (C7_load_error_characterization
      (fun _ => some (.doc { version := none, timestamp := none,
                             campbell_motto := some motto, entries := some [] }))
      "memory.json").2 _ rfl rfl⟩

/-- C8: when a file exists at the path, `save_memory` moves it to
`path ++ ".backup"` (overwriting any prior backup); on success the new
document is at the path, and on an I/O error the result is `false`, the
backup keeps the old contents, and the path is left with whatever the failed
write produced — the old file is not rolled back. -/
theorem C8_persist_backup (fs : FS) (memory : MemoryDocument)
    (file_path : String) (c : FileContent) (h : fs file_path = some c) :
    ((save_memory fs memory file_path .ok).1 = true
      ∧ (save_memory fs memory file_path .ok).2 (file_path ++ ".backup") = some c
      ∧ (save_memory fs memory file_path .ok).2 file_path = some (.doc memory))
    ∧ ∀ residue,
        (save_memory fs memory file_path (.ioError residue)).1 = false
        ∧ (save_memory fs memory file_path (.ioError residue)).2
            (file_path ++ ".backup") = some c
        ∧ (save_memory fs memory file_path (.ioError residue)).2 file_path
            = residue := by
  have hne : file_path ++ ".backup" ≠ file_path := backup_path_ne file_path
  refine ⟨⟨?_, ?_, ?_⟩, fun residue => ⟨?_, ?_, ?_⟩⟩ <;>
    simp [save_memory, h, hne]

/-- Witness for C8 at a concrete filesystem holding a malformed file. -/
theorem C8_witness :
    (save_memory (fun _ => some .malformed)
        { version := none, timestamp := none,
          campbell_motto := some motto, entries := some [] }
        "m.json" (.ioError none)).1 = false
    ∧ (save_memory (fun _ => some .malformed)
        { version := none, timestamp := none,
          campbell_motto := some motto, entries := some [] }
        "m.json" (.ioError none)).2 ("m.json" ++ ".backup") = some .malformed :=
  ⟨((C8_persist_backup (fun _ => some .malformed) _ "m.json" .malformed rfl).2 none).1,
   ((C8_persist_backup (fun _ => some .malformed) _ "m.json" .malformed rfl).2 none).2.1⟩

/-- C10: there is a document accepted by `load_memory` (valid JSON with the
correct marker, but no `entries` key) on which `add_entry` raises an uncaught
`KeyError` instead of returning a document. -/
theorem C10_append_raises_on_entryless_doc :
    load_memory
        (fun p => if p = "memory.json"
                  then some (.doc { version := none, timestamp := none,
                                    campbell_motto := some motto, entries := none })
                  else none)
        "memory.json"
      = some { version := none, timestamp := none,
               campbell_motto := some motto, entries := none }
    ∧ add_entry
        { version := none, timestamp := none,
          campbell_motto := some motto, entries := none }
        "note" "hello" "src" none "20260101" "2026-01-01T00:00:00Z"
      = none := by
  constructor
  · rfl
  · rfl

/-- C3: `add_entry` appends exactly one entry, whose id is today's date,
a dash, and the 3-digit-zero-padded successor of the count of existing ids
with today's prefix; whose content is the given content truncated to its
first 200 characters; and it sets the document timestamp to the current
time. -/
theorem C3_add_entry_functional (memory : MemoryDocument)
    (entry_type content source : String) (metadata : Option UserMeta)
    (today now : String) (es : List Entry) (h : memory.entries = some es) :
    add_entry memory entry_type content source metadata today now =
      some { memory with
             entries := some (es ++
               [{ id := today ++ "-" ++
                    pad3 ((((memory.entries.getD []).map Entry.id).filter
                      (fun i => startswith i today)).length + 1)
                  type := entry_type
                  content := content.take 200
                  source := source
                  metadata := merged_metadata metadata now }])
             timestamp := some now } := by
  simp [add_entry, h, gen_id, next_num, per_day_ids]

set_option maxRecDepth 10000 in
/-- Witness for C3 on the empty document. -/
theorem C3_witness :
    add_entry { version := none, timestamp := none,
                campbell_motto := some motto, entries := some [] }
        "note" "hello" "src" none "20260101" "2026-01-01T00:00:00Z"
      = some { version := none, timestamp := some "2026-01-01T00:00:00Z",
               campbell_motto := some motto,
               entries := some
                 [{ id := "20260101-001", type := "note", content := "hello",
                    source := "src",
                    metadata := { timestamp := "2026-01-01T00:00:00Z",
                                  extra := [] } }] } := by
  have h := C3_add_entry_functional
    { version := none, timestamp := none,
      campbell_motto := some motto, entries := some [] }
    "note" "hello" "src" none "20260101" "2026-01-01T00:00:00Z" [] rfl
  rw [h]
  decide

/-- C5: merging a document with itself adds no entries — the result's entry
list is just the timestamp-sort of the original list, a permutation of it. -/
theorem C5_merge_self_no_new_entries (d : MemoryDocument) (now : String)
    (es : List Entry) (h : d.entries = some es) :
    merge_memories d d now =
      some { d with entries := some (List.mergeSort es ts_le)
                    timestamp := some now }
    ∧ (List.mergeSort es ts_le).Perm es := by
  refine ⟨?_, List.mergeSort_perm es ts_le⟩
  have hadded : es.filter (fun e => decide (e.id ∉ es.map Entry.id)) = [] := by
    rw [List.filter_eq_nil_iff]
    intro e he
    simp [List.mem_map_of_mem Entry.id he]
  have hmain : merge_memories d d now =
      some { d with entries := some ((es ++ []).mergeSort ts_le)
                    timestamp := some now } := by
    simp only [merge_memories, h, Option.getD_some, hadded]
  rw [List.append_nil] at hmain
  exact hmain

/-- Witness for C5 on a one-entry document. -/
theorem C5_witness :
    merge_memories
        { version := none, timestamp := none, campbell_motto := some motto,
          entries := some [{ id := "20260101-001", type := "note",
                             content := "c", source := "s",
                             metadata := { timestamp := "a", extra := [] } }] }
        { version := none, timestamp := none, campbell_motto := some motto,
          entries := some [{ id := "20260101-001", type := "note",
                             content := "c", source := "s",
                             metadata := { timestamp := "a", extra := [] } }] }
        "now"
      = some { version := none, timestamp := some "now",
               campbell_motto := some motto,
               entries := some [{ id := "20260101-001", type := "note",
                                  content := "c", source := "s",
                                  metadata := { timestamp := "a", extra := [] } }] } := by
  have h := (C5_merge_self_no_new_entries
    { version := none, timestamp := none, campbell_motto := some motto,
      entries := some [{ id := "20260101-001", type := "note",
                         content := "c", source := "s",
                         metadata := { timestamp := "a", extra := [] } }] }
    "now" _ rfl).1
  rw [h]
  simp [List.mergeSort_singleton]

/-- C9: when the local file is missing or invalid (`load_memory` returns
`none`), `sync_with_remote` does not fail: it proceeds with a fresh document
carrying the schema version tag, the current timestamp, the fixed marker and
an empty entry list, records the sync attempt on it, and saves. -/
theorem C9_sync_falls_back_to_fresh_document (fs : FS)
    (local_path remote_url source_id today now : String) (w : WriteOutcome)
    (h : load_memory fs local_path = none) :
    sync_with_remote fs local_path remote_url source_id today now w =
      (add_entry
          { version := some "20260213-0.1", timestamp := some now,
            campbell_motto := some motto, entries := some [] }
          "action" ("Memory sync attempted with " ++ remote_url) source_id
          (some { timestampOverride := none
                  extra := [("sync_status", "local_only"),
                            ("remote_url", remote_url)] })
          today now).map
        (fun updated => save_memory fs updated local_path w)
    ∧ (sync_with_remote fs local_path remote_url source_id today now w).isSome := by
  have hinit : init_document now =
      { version := some "20260213-0.1", timestamp := some now,
        campbell_motto := some motto, entries := some [] } := rfl
  constructor
  · simp [sync_with_remote, h, hinit, add_entry]
  · simp [sync_with_remote, h, hinit, add_entry]

/-- Witness for C9 on an empty filesystem. -/
theorem C9_witness :
    (sync_with_remote (fun _ => none) "memory.json" "https://example.org"
        "heron-local" "20260101" "2026-01-01T00:00:00Z" .ok).isSome :=
  (C9_sync_falls_back_to_fresh_document (fun _ => none) "memory.json"
    "https://example.org" "heron-local" "20260101" "2026-01-01T00:00:00Z"
    .ok rfl).2

/-- A concrete entry used in counterexamples and witnesses. -/
def sampleEntry (id ts : String) : Entry :=
  { id := id, type := "note", content := "c", source := "s",
    metadata := { timestamp := ts, extra := [] } }

/-- A concrete marked document used in counterexamples and witnesses. -/
def sampleDoc (es : List Entry) : MemoryDocument :=
  { version := none, timestamp := none, campbell_motto := some motto,
    entries := some es }

/-- C1 counterexample: the claim fails as stated. Merge: a local document with
unique (here: no) entry ids merged with a remote whose list repeats an id
yields duplicated ids, because the duplicate-check set is computed once from
the local ids only. Append: a document with the unique, gapped ids
`20260101-001, 20260101-003` gets the generated id `20260101-003` (count of
today's ids is 2, so sequence 3), a duplicate. -/
theorem C1_counterexample :
    ((doc_ids (sampleDoc [])).Nodup
      ∧ (merge_memories (sampleDoc [])
          (sampleDoc [sampleEntry "20260101-001" "a", sampleEntry "20260101-001" "b"])
          "now").map doc_ids = some ["20260101-001", "20260101-001"]
      ∧ ¬ (["20260101-001", "20260101-001"] : List String).Nodup)
    ∧ ((doc_ids (sampleDoc [sampleEntry "20260101-001" "a",
          sampleEntry "20260101-003" "b"])).Nodup
      ∧ (add_entry (sampleDoc [sampleEntry "20260101-001" "a",
            sampleEntry "20260101-003" "b"])
          "note" "c" "s" none "20260101" "z").map doc_ids
          = some ["20260101-001", "20260101-003", "20260101-003"]
      ∧ ¬ (["20260101-001", "20260101-003", "20260101-003"] : List String).Nodup) := by
  refine ⟨⟨by decide, ?_, by decide⟩, ⟨by decide, ?_, by decide⟩⟩
  · simp [merge_memories, sampleDoc, sampleEntry, doc_ids, List.mergeSort,
      ts_le, str_le, chars_le]
  · decide

/-- C1 amended: entry ids stay unique provided (merge) the remote's own entry
list also has unique ids, and (append) the generated id does not already
occur in the document — in particular the gapped-id layout of the
counterexample is excluded. -/
theorem C1_amended_ids_unique :
    (∀ (local_ remote : MemoryDocument) (now : String) (d : MemoryDocument),
        (doc_ids local_).Nodup → (doc_ids remote).Nodup →
        merge_memories local_ remote now = some d → (doc_ids d).Nodup)
    ∧ (∀ (memory : MemoryDocument) (entry_type content source : String)
        (metadata : Option UserMeta) (today now : String) (d : MemoryDocument),
        (doc_ids memory).Nodup → gen_id memory today ∉ doc_ids memory →
        add_entry memory entry_type content source metadata today now = some d →
        (doc_ids d).Nodup) := by
  constructor
  · intro local_ remote now d hl hr hm
    cases hle : local_.entries with
    | none => simp [merge_memories, hle] at hm
    | some es =>
      simp only [merge_memories, hle, Option.getD_some, Option.some.injEq] at hm
      subst hm
      simp only [doc_ids, Option.getD_some]
      have hperm :
          (((es ++ (remote.entries.getD []).filter
              (fun e => decide (e.id ∉ es.map Entry.id))).mergeSort ts_le).map
            Entry.id).Perm
            ((es ++ (remote.entries.getD []).filter
              (fun e => decide (e.id ∉ es.map Entry.id))).map Entry.id) :=
        (List.mergeSort_perm _ _).map _
      refine hperm.nodup_iff.mpr ?_
      rw [List.map_append, List.nodup_append]
      refine ⟨?_, ?_, ?_⟩
      · simpa [doc_ids, hle] using hl
      · exact ((List.filter_sublist _).map Entry.id).nodup
          (by simpa [doc_ids] using hr)
      · intro a ha hb
        obtain ⟨e, hef, rfl⟩ := List.mem_map.mp hb
        have hfe := List.mem_filter.mp hef
        exact of_decide_eq_true hfe.2 ha
  · intro memory entry_type content source metadata today now d hm hfresh hadd
    cases hme : memory.entries with
    | none => simp [add_entry, hme] at hadd
    | some es =>
      simp only [add_entry, hme, Option.some.injEq] at hadd
      subst hadd
      simp only [doc_ids, Option.getD_some, List.map_append, List.map_cons,
        List.map_nil]
      rw [List.nodup_append]
      refine ⟨by simpa [doc_ids, hme] using hm, List.nodup_singleton _, ?_⟩
      intro a ha hb
      rw [List.mem_singleton] at hb
      subst hb
      exact hfresh (by simpa [doc_ids, hme] using ha)

/-- Witness for C1 on concrete documents: merging an empty local document
with a unique-id remote keeps ids unique. -/
theorem C1_witness :
    merge_memories (sampleDoc []) (sampleDoc [sampleEntry "20260101-001" "a"]) "now"
      = some { sampleDoc [] with
               entries := some [sampleEntry "20260101-001" "a"]
               timestamp := some "now" }
    ∧ (doc_ids { sampleDoc [] with
                 entries := some [sampleEntry "20260101-001" "a"]
                 timestamp := some "now" }).Nodup := by
  have hm : merge_memories (sampleDoc [])
      (sampleDoc [sampleEntry "20260101-001" "a"]) "now"
      = some { sampleDoc [] with
               entries := some [sampleEntry "20260101-001" "a"]
               timestamp := some "now" } := by
    simp [merge_memories, sampleDoc, sampleEntry, List.mergeSort]
  exact ⟨hm, C1_amended_ids_unique.1 _ _ "now" _ (by decide) (by decide) hm⟩

set_option maxRecDepth 10000 in
/-- C2 counterexample: `add_entry` appends without re-sorting, so appending
to a document whose existing entry has a later timestamp than the current
time leaves the entries out of order. -/
theorem C2_counterexample :
    (add_entry (sampleDoc [sampleEntry "20260101-001" "b"]) "note" "c" "s" none
        "20260101" "a").map (fun d => d.entries.getD [])
      = some [sampleEntry "20260101-001" "b", sampleEntry "20260101-002" "a"]
    ∧ ¬ SortedByTs [sampleEntry "20260101-001" "b", sampleEntry "20260101-002" "a"] := by
  constructor
  · decide
  · simp only [SortedByTs]
    decide

/-- C2 amended: after `merge_memories` the entries are always sorted
ascending by timestamp; after `add_entry` they are sorted provided the
document was sorted and no existing timestamp exceeds the new entry's
timestamp (the code appends without re-sorting, so this condition is
necessary). -/
theorem C2_amended_entries_sorted :
    (∀ (local_ remote : MemoryDocument) (now : String) (d : MemoryDocument),
        merge_memories local_ remote now = some d →
        SortedByTs (d.entries.getD []))
    ∧ (∀ (memory : MemoryDocument) (entry_type content source : String)
        (metadata : Option UserMeta) (today now : String) (d : MemoryDocument)
        (es : List Entry),
        memory.entries = some es → SortedByTs es →
        (∀ e ∈ es,
          str_le e.metadata.timestamp (merged_metadata metadata now).timestamp
            = true) →
        add_entry memory entry_type content source metadata today now = some d →
        SortedByTs (d.entries.getD [])) := by
  constructor
  · intro local_ remote now d hm
    cases hle : local_.entries with
    | none => simp [merge_memories, hle] at hm
    | some es =>
      simp only [merge_memories, hle, Option.getD_some, Option.some.injEq] at hm
      subst hm
      simp only [Option.getD_some]
      exact List.sorted_mergeSort ts_le_trans ts_le_total _
  · intro memory entry_type content source metadata today now d es hme hsorted
      hbound hadd
    simp only [add_entry, hme, Option.some.injEq] at hadd
    subst hadd
    simp only [Option.getD_some]
    rw [SortedByTs, List.pairwise_append]
    refine ⟨hsorted, List.pairwise_singleton _ _, ?_⟩
    intro a ha b hb
    rw [List.mem_singleton] at hb
    subst hb
    exact hbound a ha

set_option maxRecDepth 10000 in
/-- Witness for C2: a concrete merge result is sorted, and a concrete append
whose new timestamp is latest stays sorted. -/
theorem C2_witness :
    merge_memories (sampleDoc []) (sampleDoc [sampleEntry "20260101-002" "a"]) "now"
      = some { sampleDoc [] with
               entries := some [sampleEntry "20260101-002" "a"]
               timestamp := some "now" }
    ∧ SortedByTs (({ sampleDoc [] with
               entries := some [sampleEntry "20260101-002" "a"]
               timestamp := some "now" } : MemoryDocument).entries.getD [])
    ∧ add_entry (sampleDoc [sampleEntry "20260101-001" "a"]) "note" "c" "s" none
        "20260101" "b"
      = some { sampleDoc [sampleEntry "20260101-001" "a"] with
               entries := some [sampleEntry "20260101-001" "a",
                                sampleEntry "20260101-002" "b"]
               timestamp := some "b" }
    ∧ SortedByTs (({ sampleDoc [sampleEntry "20260101-001" "a"] with
               entries := some [sampleEntry "20260101-001" "a",
                                sampleEntry "20260101-002" "b"]
               timestamp := some "b" } : MemoryDocument).entries.getD []) := by
  have hm : merge_memories (sampleDoc [])
      (sampleDoc [sampleEntry "20260101-002" "a"]) "now"
      = some { sampleDoc [] with
               entries := some [sampleEntry "20260101-002" "a"]
               timestamp := some "now" } := by
    simp [merge_memories, sampleDoc, sampleEntry, List.mergeSort]
  have ha : add_entry (sampleDoc [sampleEntry "20260101-001" "a"]) "note" "c" "s"
      none "20260101" "b"
      = some { sampleDoc [sampleEntry "20260101-001" "a"] with
               entries := some [sampleEntry "20260101-001" "a",
                                sampleEntry "20260101-002" "b"]
               timestamp := some "b" } := by
    decide
  exact ⟨hm, C2_amended_entries_sorted.1 _ _ _ _ hm, ha,
    C2_amended_entries_sorted.2 _ _ _ _ _ _ _ _ _ rfl
      (by simp only [SortedByTs]; decide) (by decide) ha⟩

set_option maxRecDepth 10000 in
/-- C4 counterexample: a merge brings in the same-day id `20260101-005`;
the next append counts one existing id for the day and generates
`20260101-002`, whose per-day sequence number 2 is smaller than the
existing 5 — not strictly greater than every same-date entry. -/
theorem C4_counterexample :
    merge_memories (sampleDoc []) (sampleDoc [sampleEntry "20260101-005" "a"]) "t0"
      = some { sampleDoc [] with
               entries := some [sampleEntry "20260101-005" "a"]
               timestamp := some "t0" }
    ∧ (add_entry { sampleDoc [] with
                   entries := some [sampleEntry "20260101-005" "a"]
                   timestamp := some "t0" }
        "note" "c" "s" none "20260101" "t1").map doc_ids
      = some ["20260101-005", "20260101-002"]
    ∧ seq_of_id "20260101" "20260101-002" < seq_of_id "20260101" "20260101-005" := by
  refine ⟨?_, by decide, by decide⟩
  simp [merge_memories, sampleDoc, sampleEntry, List.mergeSort]

/-- C4 amended: each successful `add_entry` increments the per-day sequence
counter by exactly one, so consecutive appends on the same day — with no
intervening merge injecting foreign same-day ids — generate strictly
increasing per-day sequence numbers. -/
theorem C4_amended_per_day_counter_increments :
    ∀ (memory : MemoryDocument) (entry_type content source : String)
      (metadata : Option UserMeta) (today now : String) (d : MemoryDocument),
      add_entry memory entry_type content source metadata today now = some d →
      next_num d today = next_num memory today + 1 := by
  intro memory entry_type content source metadata today now d hadd
  cases hme : memory.entries with
  | none => simp [add_entry, hme] at hadd
  | some es =>
    simp only [add_entry, hme, Option.some.injEq] at hadd
    subst hadd
    have hone : List.filter (fun i => startswith i today) [gen_id memory today]
        = [gen_id memory today] := by
      simp [startswith_gen_id]
    simp only [next_num, per_day_ids, Option.getD_some, hme, List.map_append,
      List.map_cons, List.map_nil, List.filter_append, hone, List.length_append,
      List.length_singleton]

set_option maxRecDepth 10000 in
/-- Witness for C4: appending to the empty document generates sequence 1 and
leaves the per-day counter at 2. -/
theorem C4_witness :
    add_entry (sampleDoc []) "note" "c" "s" none "20260101" "t0"
      = some { sampleDoc [] with
               entries := some [sampleEntry "20260101-001" "t0"]
               timestamp := some "t0" }
    ∧ next_num { sampleDoc [] with
                 entries := some [sampleEntry "20260101-001" "t0"]
                 timestamp := some "t0" } "20260101"
      = next_num (sampleDoc []) "20260101" + 1 := by
  have h : add_entry (sampleDoc []) "note" "c" "s" none "20260101" "t0"
      = some { sampleDoc [] with
               entries := some [sampleEntry "20260101-001" "t0"]
               timestamp := some "t0" } := by
    decide
  exact ⟨h, C4_amended_per_day_counter_increments _ _ _ _ _ _ _ _ h⟩
